import Mathlib

/-!
Verification of the Airflow health dashboard backend (`backend/app`).

The definitions below are a shallow embedding of the Python source:
pure computation is translated to Lean functions, stateful code to
explicit state passing, exceptions to `Except`/`Option`.  Machine
floats in the source only ever hold exact ratios of small integers
here, so they are modelled by `ℚ`; timestamps are modelled by `Nat`
seconds, calendar dates by `Nat` day numbers.
-/

namespace AirflowDashboard

/-! ### Python string primitives

The handful of `str` methods the source uses, embedded as
list-of-characters functions (Python's unicode-aware variants agree
with these on the ASCII data involved here). -/

/-- Python `s.lower()`. -/
def pyLower (s : String) : String :=
  String.mk (s.data.map Char.toLower)

/-- Python `s.startswith(p)`. -/
def pyStartsWith (p s : String) : Bool :=
  p.data.isPrefixOf s.data

/-- Drop the first `n` characters of `s`. -/
def pyDrop (s : String) (n : Nat) : String :=
  String.mk (s.data.drop n)

/-- Python `s.strip()`: remove leading and trailing whitespace. -/
def pyStrip (s : String) : String :=
  String.mk (((s.data.dropWhile Char.isWhitespace).reverse.dropWhile
    Char.isWhitespace).reverse)

/-! ### Runs and state counting (`service.py`) -/

/-- A DAG-run record as the aggregation code sees it: only the
`state` field matters.  `state = none` models a JSON `null` (or a
missing key, which `run.get("state", "")` also turns into `""`). -/
structure Run where
  state : Option String
deriving Repr, DecidableEq

/-- `run.get("state", "")` with the `None`-to-`""` defensive rewrite,
then `.lower()`, as performed by `_build_domain_summary` and
`_build_dag_summary_from_runs` (service.py:323-327, 386-390). -/
def stateOf (r : Run) : String :=
  pyLower (r.state.getD "")

/-- The five counters accumulated while scanning runs. -/
structure RunCounts where
  failed : Nat
  success : Nat
  running : Nat
  queued : Nat
  total : Nat
deriving Repr, DecidableEq

def RunCounts.init : RunCounts := ⟨0, 0, 0, 0, 0⟩

/-- One iteration of the counting loops in `service.py`: a `None`
run is skipped entirely (`continue`); otherwise `total_runs` is
incremented and exactly the counter matching the lowercased state,
if any, is incremented (service.py:318-337, 382-411). -/
def tally (c : RunCounts) (r : Option Run) : RunCounts :=
  match r with
  | none => c
  | some r =>
    { failed := if stateOf r = "failed" then c.failed + 1 else c.failed
      success := if stateOf r = "success" then c.success + 1 else c.success
      running := if stateOf r = "running" then c.running + 1 else c.running
      queued := if stateOf r = "queued" then c.queued + 1 else c.queued
      total := c.total + 1 }

/-- The counting loop of `_build_domain_summary` (service.py:318-337):
all runs of all member DAGs are folded into one `RunCounts`. -/
def domainCounts (runLists : List (List (Option Run))) : RunCounts :=
  runLists.foldl (fun c runs => runs.foldl tally c) RunCounts.init

/-- The counting loop of `_build_dag_summary_from_runs`
(service.py:375-411): the counters come from the same per-run scan
(skipping `None` entries), but `total_runs` is `len(runs)`, which
counts `None` entries too (service.py:429). -/
def dagCounts (runs : List (Option Run)) : RunCounts :=
  { runs.foldl tally RunCounts.init with total := runs.length }

/-- `round(x, 2)`: round to two decimal places.  (Python rounds
floats with banker's tie-breaking; a tie at the fourth decimal never
matters for the properties proved here.) -/
def round2 (q : ℚ) : ℚ :=
  (round (q * 100) : ℤ) / 100

/-- Health-score computation of `_build_domain_summary`
(service.py:339-343,354): `success/total × 100` rounded to two
decimals when `total > 0`, else `100.0`. -/
def healthScore (c : RunCounts) : ℚ :=
  if 0 < c.total then round2 ((c.success : ℚ) / (c.total : ℚ) * 100) else 100

/-! ### Tags and domain grouping (`service.py`) -/

/-- One element of a DAG's `tags` list as received from the API:
a plain string, a `{"name": ...}` record, or anything else (which
the normalization loops skip). -/
inductive PyTag where
  | str (s : String)
  | record (name : String)
  | other
deriving Repr, DecidableEq

/-- One step of tag normalization: strings kept, records keep their
`name`, anything else dropped (service.py:269-275, 413-421). -/
def tagName? : PyTag → Option String
  | .str s => some s
  | .record n => some n
  | .other => none

/-- "Normalize tags to a list of strings" (service.py:268-275). -/
def tagNames (tags : List PyTag) : List String :=
  tags.filterMap tagName?

/-- Suffix of a `domain:`-prefixed tag: `tag_name.split(":", 1)[1]`
is everything after the first colon, i.e. after the 7-character
prefix `"domain:"`; then Python `.strip()` (service.py:286). -/
def domainSuffix (t : String) : String :=
  pyStrip (pyDrop t 7)

/-- The scanning loop of `_group_dags_by_tags` (service.py:283-290):
first tag with prefix `"domain:"` whose stripped suffix is nonempty;
a `domain:`-prefixed tag whose suffix strips to `""` fails the
`if domain_name:` test, so the scan continues past it without
assigning a domain. -/
def firstDomainName : List String → Option String
  | [] => none
  | t :: rest =>
    if pyStartsWith "domain:" t then
      if domainSuffix t ≠ "" then some (domainSuffix t)
      else firstDomainName rest
    else firstDomainName rest

/-- The bucket `_group_dags_by_tags` assigns one DAG to
(service.py:257-294): empty tag list (`if not tags`) goes to
`"untagged"`; otherwise the first nonempty domain suffix wins,
falling back to `"untagged"`. -/
def domainKey (tags : List PyTag) : String :=
  if tags.isEmpty then "untagged"
  else
    match firstDomainName (tagNames tags) with
    | some d => d
    | none => "untagged"

/-- A DAG record, restricted to the fields the grouping and
aggregation code reads. -/
structure Dag where
  dag_id : String
  tags : List PyTag
deriving Repr, DecidableEq

/-- The fiber view of the `defaultdict` built by
`_group_dags_by_tags`: every loop iteration appends its DAG to
exactly the bucket `domainKey dag.tags`, in input order, so bucket
`d` holds exactly the DAGs whose key is `d`. -/
def groupDagsByTags (dags : List Dag) (d : String) : List Dag :=
  dags.filter (fun dag => domainKey dag.tags = d)

/-- Does the normalized tag list contain any `domain:`-prefixed
tag?  (`get_domain_detail`'s "untagged" membership test,
service.py:143-145.) -/
def hasDomainPrefixTag (tags : List PyTag) : Bool :=
  (tagNames tags).any (fun t => pyStartsWith "domain:" t)

/-- The member-DAG filter of `get_domain_detail`
(service.py:127-152): for `"untagged"`, DAGs with no
`domain:`-prefixed tag; otherwise DAGs whose normalized tag list
contains the exact string `"domain:" ++ domain_tag`. -/
def domainDetailFilter (dags : List Dag) (domain_tag : String) : List Dag :=
  if domain_tag = "untagged" then
    dags.filter (fun dag => ¬ hasDomainPrefixTag dag.tags)
  else
    dags.filter (fun dag => ("domain:" ++ domain_tag) ∈ tagNames dag.tags)

/-! ### Cache (`cache.py`) -/

/-- In-process map tier: `memory_cache` and `cache_timestamps`
zipped into one association list of (key, value, set-timestamp).
First match wins on lookup, matching dict semantics because `set`
removes any older binding for the key. -/
abbrev MemStore (α : Type) : Type := List (String × α × Nat)

/-- `CacheService.set`, in-memory branch (cache.py:72-75): store the
value and the current time.  The per-entry `ttl` argument is
accepted but **not stored** — the in-memory branch ignores it. -/
def memSet {α : Type} (store : MemStore α) (k : String) (v : α)
    (ttlArg : Nat) (now : Nat) : MemStore α :=
  let _ := ttlArg
  (k, v, now) :: store.filter (fun e => e.1 ≠ k)

/-- `CacheService.get`, in-memory branch (cache.py:46-55): a hit is
returned only while `now - timestamp < settings.cache_ttl_seconds`
(the *global* configured TTL); otherwise the entry is deleted lazily
and the lookup misses. -/
def memGet {α : Type} (cacheTtl : Nat) (store : MemStore α) (k : String)
    (now : Nat) : Option α × MemStore α :=
  match store.find? (fun e => e.1 = k) with
  | none => (none, store)
  | some e =>
    if now - e.2.2 < cacheTtl then (some e.2.1, store)
    else (none, store.filter (fun x => x.1 ≠ k))

/-- `settings.cache_ttl_seconds` default (config.py:37-39). -/
def cacheTtlSecondsDefault : Nat := 120

/-- External key/value store tier, keyed expiry map.
Modelled from the spec: the external durable key/value store backend
(`redis` `setex`/`get`, a library outside this repository) "honors
the same TTL contract" — `setex k ttl v` stores `v` until `now + ttl`. -/
abbrev RedisStore (α : Type) : Type := List (String × α × Nat)

/-- `CacheService.set`, external branch (cache.py:66-71):
`setex(key, ttl, value)` with the entry's own TTL. -/
def redisSetex {α : Type} (store : RedisStore α) (k : String) (v : α)
    (ttl : Nat) (now : Nat) : RedisStore α :=
  (k, v, now + ttl) :: store.filter (fun e => e.1 ≠ k)

/-- `CacheService.get`, external branch (cache.py:42-45): the value
while it has not expired. -/
def redisGet {α : Type} (store : RedisStore α) (k : String) (now : Nat) :
    Option α :=
  match store.find? (fun e => e.1 = k) with
  | none => none
  | some e => if now < e.2.2 then some e.2.1 else none

/-! ### Airflow API client (`airflow_client.py`) -/

/-- Outcome of one fan-out request in `get_all_dag_runs_for_dags`
(airflow_client.py:265-281): `asyncio.gather(..., return_exceptions=True)`
hands back either an exception, a response whose `.json()` raises,
or a parsed body whose `dag_runs` list is `runs` (`data.get("dag_runs", [])`
maps a missing key to `[]`, folded into `ok []`). -/
inductive FetchOutcome where
  | failure
  | parseFailure
  | ok (runs : List (Option Run))
deriving Repr, DecidableEq

/-- The run list recorded for one DAG id: empty on a failed or
unparseable response (airflow_client.py:268-281). -/
def fetchedRuns : FetchOutcome → List (Option Run)
  | .failure => []
  | .parseFailure => []
  | .ok rs => rs

/-- `get_all_dag_runs_for_dags` (airflow_client.py:227-283): one
request per id, results zipped back by position (`zip(dag_ids,
responses)`) into a dict.  With one outcome per id the dict's
lookup agrees with first-match lookup in this association list. -/
def getAllDagRunsForDags (oracle : String → FetchOutcome)
    (dagIds : List String) : List (String × List (Option Run)) :=
  dagIds.map (fun id => (id, fetchedRuns (oracle id)))

/-- What the server answers to one attempt of `_make_request`:
success, HTTP 401 (`HTTPStatusError` with authorization failure),
another HTTP error status, or a transport error (`RequestError`). -/
inductive ApiResp where
  | ok
  | authFail
  | httpErr
  | netErr
deriving Repr, DecidableEq

/-- What `_make_request` finally hands its caller. -/
inductive ReqResult where
  | ok
  | httpError
  | netError
  | refreshError
deriving Repr, DecidableEq

/-- `_make_request` under the MWAA (session) strategy
(airflow_client.py:126-170).  `oracle n` is the server's answer to
the `n`-th request (0-based).  On a 401 the handler refreshes the
session (`refreshOk` tells whether `_init_mwaa_session` succeeds;
its failure propagates) and then **recursively calls itself**
(`return await self._make_request(endpoint, params)`), so the next
401 is caught by the same handler again.  `fuel` bounds the
unbounded Python recursion; `none` means the recursion did not
terminate within `fuel` attempts. -/
def makeRequest (refreshOk : Bool) (oracle : Nat → ApiResp) :
    Nat → Nat → Option ReqResult
  | 0, _ => none
  | fuel + 1, attempt =>
    match oracle attempt with
    | .ok => some .ok
    | .httpErr => some .httpError
    | .netErr => some .netError
    | .authFail =>
      if refreshOk then makeRequest refreshOk oracle fuel (attempt + 1)
      else some .refreshError

/-! ### Service read-through flows (`service.py`, `api/routes.py`) -/

/-- The two exception classes distinguished by
`get_domain_detail`'s handlers: `ValueError` (domain not found,
service.py:156-157,197-199) versus everything else reaching Airflow
(service.py:200-213). -/
inductive ServiceError where
  | domainNotFound
  | upstream
deriving Repr, DecidableEq

/-- `DashboardResponse`, restricted to the fields the claims are
about: the per-domain summaries (key, counters, health score) and
the DAG total.  Timestamps and sorting of the summary list are not
modelled. -/
structure DashboardResponse where
  domains : List (String × RunCounts × ℚ)
  totalDags : Nat
deriving Repr, DecidableEq

/-- Counters and health score of `_build_domain_summary`
(service.py:301-356): batch-fetch runs for the member DAG ids (the
dict iterates one run list per distinct id) and fold them. -/
def buildDomainSummary (dags : List Dag)
    (runsOf : String → List (Option Run)) : RunCounts × ℚ :=
  let c := domainCounts (((dags.map (fun dag => dag.dag_id)).dedup).map runsOf)
  (c, healthScore c)

/-- Insertion-ordered key set of the grouping `defaultdict`. -/
def domainKeys (dags : List Dag) : List String :=
  (dags.map (fun dag => domainKey dag.tags)).dedup

/-- The successful-aggregation body of `get_dashboard_data`
(service.py:51-73). -/
def buildDashboard (dags : List Dag)
    (runsOf : String → List (Option Run)) : DashboardResponse :=
  { domains := (domainKeys dags).map
      (fun d => (d, buildDomainSummary (groupDagsByTags dags d) runsOf))
    totalDags := dags.length }

/-- `DomainDetailResponse`, restricted to the claim-relevant
fields. -/
structure DomainDetailResponse where
  domainTag : String
  summary : RunCounts × ℚ
  dagIds : List String
deriving Repr, DecidableEq

/-- The successful-aggregation body of `get_domain_detail`
(service.py:159-187). -/
def buildDomainDetail (domain_tag : String) (domainDags : List Dag)
    (runsOf : String → List (Option Run)) : DomainDetailResponse :=
  { domainTag := domain_tag
    summary := buildDomainSummary domainDags runsOf
    dagIds := domainDags.map (fun dag => dag.dag_id) }

/-- Observable outcome of one read-through call: the returned value
or propagated error, whether the primary and fallback cache entries
were written, and whether the fallback tier was consulted. -/
structure SvcOutcome (ρ : Type) where
  result : Except ServiceError ρ
  wrotePrimary : Bool
  wroteFallback : Bool
  fallbackConsulted : Bool
deriving Repr

/-- `get_dashboard_data` (service.py:32-99): primary-cache hit
short-circuits (unless `force_refresh`); otherwise the live
aggregation runs — its only failure source is the `get_all_dags`
listing, modelled by `allDags = .error ()` (`get_all_dag_runs_for_dags`
and `cache.set` swallow their own errors and never raise).  On
failure the fallback entry is consulted: served if present, else the
exception re-raised. -/
def getDashboardData (force_refresh : Bool)
    (primary : Option DashboardResponse)
    (allDags : Except Unit (List Dag))
    (runsOf : String → List (Option Run))
    (fallback : Option DashboardResponse) : SvcOutcome DashboardResponse :=
  match force_refresh, primary with
  | false, some cached => ⟨.ok cached, false, false, false⟩
  | _, _ =>
    match allDags with
    | .ok dags => ⟨.ok (buildDashboard dags runsOf), true, true, false⟩
    | .error _ =>
      match fallback with
      | some f => ⟨.ok f, false, false, true⟩
      | none => ⟨.error .upstream, false, false, true⟩

/-- `get_domain_detail` (service.py:101-213): primary-cache hit
short-circuits; the live path filters member DAGs and raises
`ValueError` (re-raised untouched by the `except ValueError`
handler, before any cache write and without touching the fallback)
when the filter is empty; an upstream failure of the `get_all_dags`
listing goes to the fallback handler. -/
def getDomainDetail (domain_tag : String) (force_refresh : Bool)
    (primary : Option DomainDetailResponse)
    (allDags : Except Unit (List Dag))
    (runsOf : String → List (Option Run))
    (fallback : Option DomainDetailResponse) : SvcOutcome DomainDetailResponse :=
  match force_refresh, primary with
  | false, some cached => ⟨.ok cached, false, false, false⟩
  | _, _ =>
    match allDags with
    | .error _ =>
      match fallback with
      | some f => ⟨.ok f, false, false, true⟩
      | none => ⟨.error .upstream, false, false, true⟩
    | .ok dags =>
      let domainDags := domainDetailFilter dags domain_tag
      if domainDags.isEmpty then ⟨.error .domainNotFound, false, false, false⟩
      else ⟨.ok (buildDomainDetail domain_tag domainDags runsOf), true, true, false⟩

/-- HTTP status the route layer maps a service outcome to
(routes.py:89-96): `ValueError` → 404, other exception → 500,
success → 200. -/
def routeStatus {ρ : Type} (r : Except ServiceError ρ) : Nat :=
  match r with
  | .ok _ => 200
  | .error .domainNotFound => 404
  | .error .upstream => 500

/-! ### Scheduler (`scheduler.py`) -/

/-- One tick of the every-60-seconds report loop: the current
calendar date (day number), the current time-of-day in minutes
(`hour * 60 + minute`), and whether report generation and delivery
would succeed at this tick (the loop ignores this Boolean). -/
structure Tick where
  date : Nat
  timeMin : Nat
  genOk : Bool
deriving Repr, DecidableEq

/-- `_is_time_to_report` (scheduler.py:154-170):
`abs(current_minutes - target_minutes) <= 1`. -/
def isTimeToReport (cur target : Nat) : Bool :=
  ((cur : Int) - target).natAbs ≤ 1

/-- The loop's slot state: `last_morning_date` / `last_evening_date`
(scheduler.py:114-115). -/
structure SchedState where
  lastMorning : Option Nat
  lastEvening : Option Nat
deriving Repr, DecidableEq

inductive Slot where
  | morning
  | evening
deriving Repr, DecidableEq

def SchedState.lastOf : SchedState → Slot → Option Nat
  | s, .morning => s.lastMorning
  | s, .evening => s.lastEvening

def targetOf (m e : Nat) : Slot → Nat
  | .morning => m
  | .evening => e

/-- One iteration of the `while self.running` body
(scheduler.py:117-148): morning slot checked first, evening in the
`elif`; firing a slot invokes report generation (its Boolean result
is discarded) and then unconditionally records today's date on that
slot. -/
def schedStep (m e : Nat) (s : SchedState) (t : Tick) :
    SchedState × Option Slot :=
  if isTimeToReport t.timeMin m ∧ s.lastMorning ≠ some t.date then
    ({ s with lastMorning := some t.date }, some .morning)
  else if isTimeToReport t.timeMin e ∧ s.lastEvening ≠ some t.date then
    ({ s with lastEvening := some t.date }, some .evening)
  else (s, none)

/-- Run the loop over a list of ticks, collecting the (date, slot)
firing events in order. -/
def schedRun (m e : Nat) : SchedState → List Tick → SchedState × List (Nat × Slot)
  | s, [] => (s, [])
  | s, t :: ts =>
    let p := schedStep m e s t
    let q := schedRun m e p.1 ts
    (q.1, (match p.2 with
           | some sl => [(t.date, sl)]
           | none => []) ++ q.2)

/-- How many times slot `sl` fired on date `d` in an event list. -/
def firedCount (evs : List (Nat × Slot)) (d : Nat) (sl : Slot) : Nat :=
  evs.countP (fun ev => decide (ev.1 = d ∧ ev.2 = sl))

/-- `generate_and_send_report` (scheduler.py:43-100): any exception
while building the dashboard is caught and turned into `False`; an
empty domain list returns `False`; a failure of the optional AI
analysis (`aiOk`) is caught and ignored; otherwise the messaging
send result is returned.  The function never raises. -/
def generateAndSendReport (dashboard : Except Unit DashboardResponse)
    (aiOk : Bool) (sendOk : Bool) : Bool :=
  let _ := aiOk
  match dashboard with
  | .error _ => false
  | .ok d => if d.domains.isEmpty then false else sendOk

/-! ### Concrete inputs used by witnesses and counterexamples -/

/-- The §8 scenario's `finance` runs: `[success, failed]` and
`[success]`. -/
def demoRuns : List (List (Option Run)) :=
  [[some ⟨some "success"⟩, some ⟨some "failed"⟩], [some ⟨some "success"⟩]]

/-- The §8 scheduler scenario: morning slot 10:00 (= 600 minutes);
ticks at 10:00 and 10:01 on day 0 and at 10:00 on day 1. -/
def demoTrace : List Tick :=
  [⟨0, 600, true⟩, ⟨0, 601, true⟩, ⟨1, 600, true⟩]

/-! ### Helper lemmas about counting -/

theorem tally_sum_le (c : RunCounts) (r : Option Run)
    (h : c.failed + c.success + c.running + c.queued ≤ c.total) :
    (tally c r).failed + (tally c r).success + (tally c r).running +
      (tally c r).queued ≤ (tally c r).total := by
  cases r with
  | none => exact h
  | some r =>
    show (if stateOf r = "failed" then c.failed + 1 else c.failed) +
        (if stateOf r = "success" then c.success + 1 else c.success) +
        (if stateOf r = "running" then c.running + 1 else c.running) +
        (if stateOf r = "queued" then c.queued + 1 else c.queued) ≤ c.total + 1
    split_ifs <;> first | omega | simp_all

theorem tally_total_le (c : RunCounts) (r : Option Run) :
    (tally c r).total ≤ c.total + 1 := by
  cases r <;> simp [tally]

theorem foldl_tally_sum_le (rs : List (Option Run)) (c : RunCounts)
    (h : c.failed + c.success + c.running + c.queued ≤ c.total) :
    (rs.foldl tally c).failed + (rs.foldl tally c).success +
      (rs.foldl tally c).running + (rs.foldl tally c).queued ≤
      (rs.foldl tally c).total := by
  induction rs generalizing c with
  | nil => exact h
  | cons r rs ih => exact ih _ (tally_sum_le c r h)

theorem foldl_tally_total_le_length (rs : List (Option Run)) (c : RunCounts) :
    (rs.foldl tally c).total ≤ c.total + rs.length := by
  induction rs generalizing c with
  | nil => simp
  | cons r rs ih =>
    calc ((r :: rs).foldl tally c).total = (rs.foldl tally (tally c r)).total := rfl
    _ ≤ (tally c r).total + rs.length := ih _
    _ ≤ c.total + 1 + rs.length := by
        have := tally_total_le c r
        omega
    _ = c.total + (r :: rs).length := by simp; omega

theorem domainCounts_sum_le (runLists : List (List (Option Run))) :
    (domainCounts runLists).failed + (domainCounts runLists).success +
      (domainCounts runLists).running + (domainCounts runLists).queued ≤
      (domainCounts runLists).total := by
  unfold domainCounts
  have main : ∀ (ls : List (List (Option Run))) (c : RunCounts),
      c.failed + c.success + c.running + c.queued ≤ c.total →
      (ls.foldl (fun c runs => runs.foldl tally c) c).failed +
        (ls.foldl (fun c runs => runs.foldl tally c) c).success +
        (ls.foldl (fun c runs => runs.foldl tally c) c).running +
        (ls.foldl (fun c runs => runs.foldl tally c) c).queued ≤
        (ls.foldl (fun c runs => runs.foldl tally c) c).total := by
    intro ls
    induction ls with
    | nil => intro c h; exact h
    | cons runs ls ih =>
      intro c h
      exact ih _ (foldl_tally_sum_le runs c h)
  exact main runLists RunCounts.init (by simp [RunCounts.init])

theorem round2_mono {p q : ℚ} (h : p ≤ q) : round2 p ≤ round2 q := by
  unfold round2
  have : round (p * 100) ≤ round (q * 100) := by
    rw [round_eq, round_eq]
    exact Int.floor_le_floor (by linarith)
  have h100 : (0 : ℚ) < 100 := by norm_num
  rw [div_le_div_iff₀ h100 h100]
  exact_mod_cast mul_le_mul_of_nonneg_right this (by norm_num)

theorem round2_zero : round2 0 = 0 := by
  unfold round2
  norm_num

theorem round2_hundred : round2 100 = 100 := by
  unfold round2
  rw [show ((100 : ℚ) * 100) = ((10000 : ℤ) : ℚ) by norm_num, round_intCast]
  norm_num

theorem healthScore_bounds (c : RunCounts) (hc : c.success ≤ c.total) :
    0 ≤ healthScore c ∧ healthScore c ≤ 100 := by
  unfold healthScore
  split
  · rename_i hpos
    have htot : (0 : ℚ) < (c.total : ℚ) := by exact_mod_cast hpos
    have hratio0 : (0 : ℚ) ≤ (c.success : ℚ) / (c.total : ℚ) * 100 := by
      positivity
    have hratio1 : (c.success : ℚ) / (c.total : ℚ) * 100 ≤ 100 := by
      have : (c.success : ℚ) / (c.total : ℚ) ≤ 1 := by
        rw [div_le_one htot]
        exact_mod_cast hc
      linarith
    constructor
    · have := round2_mono hratio0
      rwa [round2_zero] at this
    · have := round2_mono hratio1
      rwa [round2_hundred] at this
  · norm_num

theorem tally_unrecognized (c : RunCounts) (r : Run)
    (h1 : stateOf r ≠ "failed") (h2 : stateOf r ≠ "success")
    (h3 : stateOf r ≠ "running") (h4 : stateOf r ≠ "queued") :
    tally c (some r) = { c with total := c.total + 1 } := by
  simp [tally, h1, h2, h3, h4]

theorem healthScore_tally_unrecognized (c : RunCounts) (r : Run)
    (h1 : stateOf r ≠ "failed") (h2 : stateOf r ≠ "success")
    (h3 : stateOf r ≠ "running") (h4 : stateOf r ≠ "queued")
    (hc : c.success ≤ c.total) :
    healthScore (tally c (some r)) ≤ healthScore c := by
  rw [tally_unrecognized c r h1 h2 h3 h4]
  by_cases h0 : c.total = 0
  · have hs : c.success = 0 := by omega
    have : healthScore { c with total := c.total + 1 } = 0 := by
      simp [healthScore, h0, hs, round2_zero]
    rw [this]
    have : healthScore c = 100 := by simp [healthScore, h0]
    rw [this]; norm_num
  · have hpos : 0 < c.total := Nat.pos_of_ne_zero h0
    have hposQ : (0 : ℚ) < (c.total : ℚ) := by exact_mod_cast hpos
    have hscore1 : healthScore { c with total := c.total + 1 } =
        round2 ((c.success : ℚ) / ((c.total : ℚ) + 1) * 100) := by
      simp [healthScore]
    have hscore2 : healthScore c =
        round2 ((c.success : ℚ) / (c.total : ℚ) * 100) := by
      simp [healthScore, hpos]
    rw [hscore1, hscore2]
    apply round2_mono
    have hdiv : (c.success : ℚ) / ((c.total : ℚ) + 1) ≤
        (c.success : ℚ) / (c.total : ℚ) := by
      apply div_le_div_of_nonneg_left (by positivity) hposQ
      linarith
    linarith

/-! ### Claim theorems -/

/-- Claim C1: for every domain health summary produced by the
aggregation engine, `health_score` equals
`success_count / total_runs × 100` rounded to 2 decimals when
`total_runs > 0`, equals exactly `100.0` when `total_runs = 0`, and
always lies in the closed interval `[0, 100]`. -/
theorem health_score_spec (runLists : List (List (Option Run))) :
    (0 < (domainCounts runLists).total →
      healthScore (domainCounts runLists) =
        round2 (((domainCounts runLists).success : ℚ) /
          ((domainCounts runLists).total : ℚ) * 100)) ∧
    ((domainCounts runLists).total = 0 →
      healthScore (domainCounts runLists) = 100) ∧
    0 ≤ healthScore (domainCounts runLists) ∧
    healthScore (domainCounts runLists) ≤ 100 := by
  have hsum := domainCounts_sum_le runLists
  have hb := healthScore_bounds (domainCounts runLists) (by omega)
  refine ⟨?_, ?_, hb.1, hb.2⟩
  · intro h
    simp [healthScore, h]
  · intro h
    simp [healthScore, h]

theorem health_score_spec_witness :
    0 < (domainCounts demoRuns).total ∧
    healthScore (domainCounts demoRuns) =
      round2 (((domainCounts demoRuns).success : ℚ) /
        ((domainCounts demoRuns).total : ℚ) * 100) :=
  ⟨by decide, (health_score_spec demoRuns).1 (by decide)⟩

/-- Claim C9: in every domain and per-DAG summary the four state
counters sum to at most `total_runs`; the per-DAG `total_runs` is
the raw run-list length (so `None` entries count toward it); a run
whose state is null, missing or unrecognized increments `total`
while contributing to no state counter, and appending such a run
cannot raise the health score. -/
theorem counter_sum_invariant (runLists : List (List (Option Run)))
    (runs : List (Option Run)) (r : Run) (c : RunCounts)
    (h1 : stateOf r ≠ "failed") (h2 : stateOf r ≠ "success")
    (h3 : stateOf r ≠ "running") (h4 : stateOf r ≠ "queued")
    (hc : c.success ≤ c.total) :
    ((domainCounts runLists).failed + (domainCounts runLists).success +
        (domainCounts runLists).running + (domainCounts runLists).queued ≤
        (domainCounts runLists).total) ∧
    ((dagCounts runs).failed + (dagCounts runs).success +
        (dagCounts runs).running + (dagCounts runs).queued ≤
        (dagCounts runs).total) ∧
    (dagCounts runs).total = runs.length ∧
    tally c (some r) = { c with total := c.total + 1 } ∧
    healthScore (tally c (some r)) ≤ healthScore c := by
  refine ⟨domainCounts_sum_le runLists, ?_, rfl,
    tally_unrecognized c r h1 h2 h3 h4,
    healthScore_tally_unrecognized c r h1 h2 h3 h4 hc⟩
  have hs := foldl_tally_sum_le runs RunCounts.init (by simp [RunCounts.init])
  have ht := foldl_tally_total_le_length runs RunCounts.init
  have hinit : RunCounts.init.total = 0 := rfl
  show (runs.foldl tally RunCounts.init).failed +
      (runs.foldl tally RunCounts.init).success +
      (runs.foldl tally RunCounts.init).running +
      (runs.foldl tally RunCounts.init).queued ≤ runs.length
  omega

theorem counter_sum_invariant_witness :
    (dagCounts [some ⟨some "weird"⟩, none]).total = 2 ∧
    tally RunCounts.init (some ⟨none⟩) =
      { RunCounts.init with total := RunCounts.init.total + 1 } := by
  have h := counter_sum_invariant demoRuns [some ⟨some "weird"⟩, none]
    ⟨none⟩ RunCounts.init (by decide) (by decide) (by decide) (by decide)
    (by decide)
  exact ⟨h.2.2.1, h.2.2.2.1⟩

theorem memGet_memSet_same {α : Type} (store : MemStore α) (k : String)
    (v : α) (ttl now cacheTtl t : Nat) :
    (memGet cacheTtl (memSet store k v ttl now) k t).1 =
      if t - now < cacheTtl then some v else none := by
  simp only [memGet, memSet]
  rw [List.find?_cons_of_pos _ (by simp)]
  dsimp only
  split <;> rfl

theorem redisGet_redisSetex_same {α : Type} (store : RedisStore α)
    (k : String) (v : α) (ttl now t : Nat) :
    redisGet (redisSetex store k v ttl now) k t =
      if t < now + ttl then some v else none := by
  simp only [redisGet, redisSetex]
  rw [List.find?_cons_of_pos _ (by simp)]

/-- Claim C2 fails on the code: the in-process map ignores the
per-entry TTL.  `set("k", v, ttl = 3600)` at time 0 followed by
`get("k")` at time 121 — well before the 3600-second entry TTL has
elapsed — misses, because the in-memory branch compares the entry's
age against the global `cache_ttl_seconds` (default 120), not
against the `ttl` argument passed to `set`. -/
theorem cache_entry_ttl_counterexample :
    (memGet cacheTtlSecondsDefault
        (memSet ([] : MemStore Nat) "k" 7 3600 0) "k" 121).1 = none ∧
    (121 : Nat) - 0 < 3600 := by
  constructor
  · rw [memGet_memSet_same]
    decide
  · decide

/-- Claim C2 (amended): `set(k, v, t)` followed immediately by
`get(k)` returns `v` in both backing stores; the external store
expires the entry per its own TTL `t`; the in-process map instead
expires every entry once the globally configured
`cache_ttl_seconds` have elapsed since its `set`, ignoring the
per-entry `t` — so the fallback tier's fixed 3600-second TTL is
honored only by the external store. -/
theorem cache_ttl_contract {α : Type} (store rstore : MemStore α)
    (k : String) (v : α) (ttl now cacheTtl : Nat) :
    (0 < cacheTtl →
      (memGet cacheTtl (memSet store k v ttl now) k now).1 = some v) ∧
    (∀ later, now + cacheTtl ≤ later →
      (memGet cacheTtl (memSet store k v ttl now) k later).1 = none) ∧
    (0 < ttl → redisGet (redisSetex rstore k v ttl now) k now = some v) ∧
    (∀ later, now + ttl ≤ later →
      redisGet (redisSetex rstore k v ttl now) k later = none) := by
  refine ⟨?_, ?_, ?_, ?_⟩
  · intro h
    rw [memGet_memSet_same]
    simp [h]
  · intro later hl
    rw [memGet_memSet_same]
    have : ¬(later - now < cacheTtl) := by omega
    simp [this]
  · intro h
    rw [redisGet_redisSetex_same]
    simp [h]
  · intro later hl
    rw [redisGet_redisSetex_same]
    have : ¬(later < now + ttl) := by omega
    simp [this]

theorem cache_ttl_contract_witness :
    (memGet 120 (memSet ([] : MemStore Nat) "k" 7 3600 0) "k" 0).1 = some 7 ∧
    redisGet (redisSetex ([] : RedisStore Nat) "k" 7 3600 0) "k" 3600 = none :=
  ⟨(cache_ttl_contract ([] : MemStore Nat) [] "k" 7 3600 0 120).1 (by decide),
   (cache_ttl_contract ([] : MemStore Nat) [] "k" 7 3600 0 120).2.2.2 3600
     (by decide)⟩

theorem lookup_map_pair {β : Type} (f : String → β) (ids : List String)
    (id : String) (hid : id ∈ ids) :
    (ids.map (fun i => (i, f i))).lookup id = some (f id) := by
  induction ids with
  | nil => cases hid
  | cons i is ih =>
    by_cases h : id = i
    · subst h
      simp [List.lookup]
    · rcases List.mem_cons.mp hid with h2 | h2
      · exact absurd h2 h
      · simpa [List.lookup, beq_false_of_ne h] using ih h2

/-- Claim C7: the batched run fetch returns an entry for every
requested DAG id; a failed or unparseable individual response
yields an empty run list for that id; and the aggregate result is a
total function of the per-request outcomes — no individual failure
escapes it. -/
theorem list_runs_for_many_total (oracle : String → FetchOutcome)
    (ids : List String) (id : String) (hid : id ∈ ids) :
    (getAllDagRunsForDags oracle ids).lookup id =
      some (fetchedRuns (oracle id)) ∧
    ((oracle id = .failure ∨ oracle id = .parseFailure) →
      (getAllDagRunsForDags oracle ids).lookup id = some []) ∧
    (getAllDagRunsForDags oracle ids).map Prod.fst = ids := by
  refine ⟨lookup_map_pair (fun i => fetchedRuns (oracle i)) ids id hid, ?_, ?_⟩
  · intro h
    have hmain : (getAllDagRunsForDags oracle ids).lookup id =
        some (fetchedRuns (oracle id)) :=
      lookup_map_pair (fun i => fetchedRuns (oracle i)) ids id hid
    have hnil : fetchedRuns (oracle id) = [] := by
      rcases h with h | h <;> rw [h] <;> rfl
    rw [hnil] at hmain
    exact hmain
  · clear hid
    induction ids with
    | nil => rfl
    | cons i is ih =>
      simp only [getAllDagRunsForDags, List.map_cons] at ih ⊢
      rw [ih]

theorem list_runs_for_many_total_witness :
    (getAllDagRunsForDags (fun _ => FetchOutcome.failure) ["a", "b"]).lookup
      "a" = some [] :=
  (list_runs_for_many_total (fun _ => FetchOutcome.failure) ["a", "b"] "a"
    (by decide)).2.1 (Or.inl rfl)

/-- Claim C4 concerns a code defect: under the session (MWAA)
strategy, `_make_request` reacts to *every* HTTP 401 by refreshing
the session and calling itself again — the retry is unbounded, not
"exactly once", and a second authorization failure triggers a third
request instead of propagating (the code's own inline comment says
"Retry the request once").  Concretely: a server that always
answers 401 keeps the client looping (no fuel suffices), a server
answering 401, 401, 200 gets a third request which succeeds, and
every 401 answer steps to another attempt. -/
theorem mwaa_retry_unbounded :
    (∀ fuel start,
      makeRequest true (fun _ => ApiResp.authFail) fuel start = none) ∧
    makeRequest true (fun n => if n < 2 then ApiResp.authFail else ApiResp.ok)
      3 0 = some ReqResult.ok ∧
    (∀ oracle fuel attempt, oracle attempt = ApiResp.authFail →
      makeRequest true oracle (fuel + 1) attempt =
        makeRequest true oracle fuel (attempt + 1)) := by
  refine ⟨?_, by decide, ?_⟩
  · intro fuel
    induction fuel with
    | zero => intro start; rfl
    | succ n ih =>
      intro start
      simpa [makeRequest] using ih (start + 1)
  · intro oracle fuel attempt h
    simp [makeRequest, h]

theorem mwaa_retry_unbounded_witness :
    makeRequest true (fun _ => ApiResp.authFail) 5 0 =
      makeRequest true (fun _ => ApiResp.authFail) 4 1 :=
  mwaa_retry_unbounded.2.2 (fun _ => ApiResp.authFail) 4 0 rfl

/-- Claim C3: when the live aggregation fails (an upstream failure,
not domain-not-found) on a path that reaches it (cache bypassed or
missed), both the dashboard and the domain-detail operation serve
the fallback cache entry when one exists, and propagate the
original failure when none does. -/
theorem fallback_on_failure (fr : Bool) (p : Option DashboardResponse)
    (runsOf : String → List (Option Run)) (fb : DashboardResponse)
    (dtag : String) (frd : Bool) (pd : Option DomainDetailResponse)
    (runsOfd : String → List (Option Run)) (fbd : DomainDetailResponse)
    (hlive : fr = true ∨ p = none) (hlived : frd = true ∨ pd = none) :
    (getDashboardData fr p (.error ()) runsOf (some fb)).result = .ok fb ∧
    (getDashboardData fr p (.error ()) runsOf none).result =
      .error .upstream ∧
    (getDomainDetail dtag frd pd (.error ()) runsOfd (some fbd)).result =
      .ok fbd ∧
    (getDomainDetail dtag frd pd (.error ()) runsOfd none).result =
      .error .upstream := by
  refine ⟨?_, ?_, ?_, ?_⟩
  · rcases hlive with rfl | rfl
    · cases p <;> rfl
    · cases fr <;> rfl
  · rcases hlive with rfl | rfl
    · cases p <;> rfl
    · cases fr <;> rfl
  · rcases hlived with rfl | rfl
    · cases pd <;> rfl
    · cases frd <;> rfl
  · rcases hlived with rfl | rfl
    · cases pd <;> rfl
    · cases frd <;> rfl

theorem fallback_on_failure_witness :
    (getDashboardData true none (.error ()) (fun _ => [])
      (some ⟨[], 0⟩)).result = .ok (⟨[], 0⟩ : DashboardResponse) ∧
    (getDomainDetail "d" true none (.error ()) (fun _ => []) none).result =
      .error .upstream :=
  ⟨(fallback_on_failure true none (fun _ => []) ⟨[], 0⟩ "d" true none
      (fun _ => []) ⟨"d", (RunCounts.init, 100), []⟩ (Or.inl rfl)
      (Or.inl rfl)).1,
   (fallback_on_failure true none (fun _ => []) ⟨[], 0⟩ "d" true none
      (fun _ => []) ⟨"d", (RunCounts.init, 100), []⟩ (Or.inl rfl)
      (Or.inl rfl)).2.2.2⟩

/-- Claim C8: a domain-detail request whose member-DAG filter comes
up empty (on a path that reaches the live aggregation) raises the
distinct domain-not-found error, surfaced by the route layer as
HTTP 404; on this path nothing is written to either cache tier and
the fallback tier is not consulted. -/
theorem domain_not_found_404 (dtag : String) (fr : Bool)
    (p : Option DomainDetailResponse) (dags : List Dag)
    (runsOf : String → List (Option Run))
    (fb : Option DomainDetailResponse)
    (hlive : fr = true ∨ p = none)
    (hempty : domainDetailFilter dags dtag = []) :
    (getDomainDetail dtag fr p (.ok dags) runsOf fb).result =
      .error .domainNotFound ∧
    (getDomainDetail dtag fr p (.ok dags) runsOf fb).wrotePrimary = false ∧
    (getDomainDetail dtag fr p (.ok dags) runsOf fb).wroteFallback = false ∧
    (getDomainDetail dtag fr p (.ok dags) runsOf fb).fallbackConsulted =
      false ∧
    routeStatus (getDomainDetail dtag fr p (.ok dags) runsOf fb).result =
      404 := by
  have hred : getDomainDetail dtag fr p (.ok dags) runsOf fb =
      ⟨.error .domainNotFound, false, false, false⟩ := by
    rcases hlive with rfl | rfl
    · cases p <;> simp [getDomainDetail, hempty]
    · cases fr <;> simp [getDomainDetail, hempty]
  rw [hred]
  exact ⟨rfl, rfl, rfl, rfl, rfl⟩

theorem firstDomainName_append (pre : List String) (t0 : String)
    (post : List String)
    (hpre : ∀ u ∈ pre, pyStartsWith "domain:" u = true → domainSuffix u = "")
    (h1 : pyStartsWith "domain:" t0 = true) (h2 : domainSuffix t0 ≠ "") :
    firstDomainName (pre ++ t0 :: post) = some (domainSuffix t0) := by
  induction pre with
  | nil => simp [firstDomainName, h1, h2]
  | cons u us ih =>
    have ihtail := ih (fun x hx hpx => hpre x (by simp [hx]) hpx)
    by_cases hu : pyStartsWith "domain:" u = true
    · have hsuf := hpre u (by simp) hu
      simp [firstDomainName, hu, hsuf, ihtail]
    · simp [firstDomainName, hu, ihtail]

theorem firstDomainName_none (l : List String)
    (h : ∀ u ∈ l, pyStartsWith "domain:" u = false) :
    firstDomainName l = none := by
  induction l with
  | nil => rfl
  | cons u us ih =>
    have hu := h u (by simp)
    simp [firstDomainName, hu, ih (fun x hx => h x (by simp [hx]))]

theorem domainKey_eq_of_firstDomainName {tags : List PyTag} {d0 : String}
    (hk : firstDomainName (tagNames tags) = some d0) :
    domainKey tags = d0 := by
  unfold domainKey
  cases htags : tags.isEmpty
  · simp [hk]
  · have : tags = [] := List.isEmpty_iff.mp htags
    subst this
    simp [tagNames] at hk
    simp [firstDomainName] at hk
  -- (the `true` case is impossible: an empty tag list has no names)

theorem mem_groupDagsByTags_iff {dags : List Dag} {dag : Dag} (d : String)
    (hmem : dag ∈ dags) :
    dag ∈ groupDagsByTags dags d ↔ domainKey dag.tags = d := by
  simp [groupDagsByTags, List.mem_filter, hmem]

/-- Claim C5 fails on the code at the tag list
`["domain:", "domain:x"]`: the first `domain:` tag does *not* win
when its stripped suffix is empty — the scanning loop's
`if domain_name:` test skips it and the second tag's suffix `"x"`
is assigned instead of the first tag's (empty) suffix. -/
theorem first_domain_tag_counterexample :
    domainKey [PyTag.str "domain:", PyTag.str "domain:x"] = "x" ∧
    domainKey [PyTag.str "domain:"] = "untagged" ∧
    domainSuffix "domain:" = "" ∧ ("x" : String) ≠ "" ∧
    ("untagged" : String) ≠ "" := by
  decide

/-- Claim C5 (amended): grouping assigns a workflow to the domain
obtained from the *first tag whose `domain:` suffix strips and
trims to a nonempty string* (and to no other domain); a
`domain:`-prefixed tag with empty trimmed suffix is skipped by the
scan; a workflow with no `domain:`-prefixed tag at all is placed in
`"untagged"` and nowhere else.  In particular a workflow whose
normalized tags contain exactly one `domain:X` tag with nonempty
trimmed `X` lands in domain `X` only. -/
theorem grouping_first_nonempty_domain_tag (dags : List Dag) (dag : Dag)
    (hmem : dag ∈ dags) :
    (∀ pre t0 post, tagNames dag.tags = pre ++ t0 :: post →
      (∀ u ∈ pre, pyStartsWith "domain:" u = true → domainSuffix u = "") →
      pyStartsWith "domain:" t0 = true → domainSuffix t0 ≠ "" →
      dag ∈ groupDagsByTags dags (domainSuffix t0) ∧
      ∀ d, d ≠ domainSuffix t0 → dag ∉ groupDagsByTags dags d) ∧
    ((∀ u ∈ tagNames dag.tags, pyStartsWith "domain:" u = false) →
      dag ∈ groupDagsByTags dags "untagged" ∧
      ∀ d, d ≠ "untagged" → dag ∉ groupDagsByTags dags d) := by
  constructor
  · intro pre t0 post hsplit hpre h1 h2
    have hkey : domainKey dag.tags = domainSuffix t0 := by
      apply domainKey_eq_of_firstDomainName
      rw [hsplit]
      exact firstDomainName_append pre t0 post hpre h1 h2
    refine ⟨(mem_groupDagsByTags_iff _ hmem).mpr hkey, ?_⟩
    intro d hd hcontra
    exact hd (((mem_groupDagsByTags_iff _ hmem).mp hcontra).symm.trans hkey)
  · intro hnone
    have hkey : domainKey dag.tags = "untagged" := by
      unfold domainKey
      cases htags : dag.tags.isEmpty
      · rw [firstDomainName_none _ hnone]
        rfl
      · rfl
    refine ⟨(mem_groupDagsByTags_iff _ hmem).mpr hkey, ?_⟩
    intro d hd hcontra
    exact hd (((mem_groupDagsByTags_iff _ hmem).mp hcontra).symm.trans hkey)

theorem grouping_first_nonempty_domain_tag_witness :
    (⟨"a", [PyTag.str "team:x", PyTag.str "domain:fin"]⟩ : Dag) ∈
      groupDagsByTags [⟨"a", [PyTag.str "team:x", PyTag.str "domain:fin"]⟩]
        (domainSuffix "domain:fin") ∧
    (⟨"a", [PyTag.str "team:x", PyTag.str "domain:fin"]⟩ : Dag) ∉
      groupDagsByTags [⟨"a", [PyTag.str "team:x", PyTag.str "domain:fin"]⟩]
        "untagged" :=
  have h := (grouping_first_nonempty_domain_tag
      [⟨"a", [PyTag.str "team:x", PyTag.str "domain:fin"]⟩]
      ⟨"a", [PyTag.str "team:x", PyTag.str "domain:fin"]⟩ (by decide)).1
    ["team:x"] "domain:fin" [] rfl (by decide) (by decide) (by decide)
  ⟨h.1, h.2 "untagged" (by decide)⟩

theorem domain_not_found_404_witness :
    (getDomainDetail "x" true none (.ok []) (fun _ => []) none).result =
      .error .domainNotFound ∧
    routeStatus (getDomainDetail "x" true none (.ok []) (fun _ => [])
      none).result = 404 :=
  ⟨(domain_not_found_404 "x" true none [] (fun _ => []) none (Or.inl rfl)
      rfl).1,
   (domain_not_found_404 "x" true none [] (fun _ => []) none (Or.inl rfl)
      rfl).2.2.2.2⟩

theorem schedStep_not_fired_lastOf (m e : Nat) (s : SchedState) (t : Tick)
    (sl : Slot) (h : (schedStep m e s t).2 ≠ some sl) :
    (schedStep m e s t).1.lastOf sl = s.lastOf sl := by
  unfold schedStep at h ⊢
  split_ifs at h ⊢ <;> cases sl <;> simp_all [SchedState.lastOf]

theorem schedStep_fired (m e : Nat) (s : SchedState) (t : Tick) (sl : Slot)
    (h : (schedStep m e s t).2 = some sl) :
    s.lastOf sl ≠ some t.date ∧
    (schedStep m e s t).1.lastOf sl = some t.date ∧
    isTimeToReport t.timeMin (targetOf m e sl) = true := by
  unfold schedStep at h ⊢
  split_ifs at h ⊢ with h1 h2 <;> cases sl <;>
    simp_all [SchedState.lastOf, targetOf]

theorem schedRun_cons (m e : Nat) (s : SchedState) (t : Tick)
    (ts : List Tick) :
    schedRun m e s (t :: ts) =
      ((schedRun m e (schedStep m e s t).1 ts).1,
        (match (schedStep m e s t).2 with
         | some sl => [(t.date, sl)]
         | none => []) ++ (schedRun m e (schedStep m e s t).1 ts).2) := rfl

theorem firedCount_append (evs evs2 : List (Nat × Slot)) (d : Nat)
    (sl : Slot) :
    firedCount (evs ++ evs2) d sl = firedCount evs d sl + firedCount evs2 d sl :=
  List.countP_append _ _ _

theorem schedRun_count_zero_of_dates_gt (m e d : Nat) (sl : Slot) :
    ∀ (ts : List Tick) (s : SchedState), (∀ u ∈ ts, d < u.date) →
      firedCount (schedRun m e s ts).2 d sl = 0 := by
  intro ts
  induction ts with
  | nil => intro s _; rfl
  | cons t ts ih =>
    intro s h
    have ht : d < t.date := h t (by simp)
    have hrest := ih (schedStep m e s t).1 (fun u hu => h u (by simp [hu]))
    rw [schedRun_cons, firedCount_append, hrest]
    cases hf : (schedStep m e s t).2 with
    | none => rfl
    | some sl0 =>
      have : ¬(t.date = d ∧ sl0 = sl) := by
        rintro ⟨h1, _⟩
        omega
      simp [firedCount, List.countP_cons, this]

theorem schedRun_count_zero_of_blocked (m e d : Nat) (sl : Slot) :
    ∀ (ts : List Tick) (s : SchedState), s.lastOf sl = some d →
      List.Pairwise (fun a b => a.date ≤ b.date) ts →
      (∀ u ∈ ts, d ≤ u.date) →
      firedCount (schedRun m e s ts).2 d sl = 0 := by
  intro ts
  induction ts with
  | nil => intro s _ _ _; rfl
  | cons t ts ih =>
    intro s hlast hp hge
    obtain ⟨hhead, htail⟩ := List.pairwise_cons.mp hp
    rw [schedRun_cons, firedCount_append]
    cases hf : (schedStep m e s t).2 with
    | none =>
      have hkeep := schedStep_not_fired_lastOf m e s t sl (by rw [hf]; simp)
      rw [ih (schedStep m e s t).1 (hkeep.trans hlast) htail
        (fun u hu => hge u (by simp [hu]))]
      rfl
    | some sl0 =>
      by_cases hsl : sl0 = sl
      · subst hsl
        have hfired := schedStep_fired m e s t sl0 hf
        have htne : t.date ≠ d := by
          intro hc
          exact hfired.1 (by rw [hc, ← hlast])
        have hdlt : d < t.date := by
          have := hge t (by simp)
          omega
        have hz := schedRun_count_zero_of_dates_gt m e d sl0
          ts (schedStep m e s t).1 (fun u hu => by
            have := hhead u hu
            omega)
        rw [hz]
        simp [firedCount, List.countP_cons, htne]
      · have hkeep := schedStep_not_fired_lastOf m e s t sl (by
          rw [hf]
          simp [hsl])
        rw [ih (schedStep m e s t).1 (hkeep.trans hlast) htail
          (fun u hu => hge u (by simp [hu]))]
        have hne : ¬(t.date = d ∧ sl0 = sl) := fun hc => hsl hc.2
        simp [firedCount, List.countP_cons, hne]

theorem schedRun_count_le_one (m e d : Nat) (sl : Slot) :
    ∀ (ts : List Tick) (s : SchedState),
      List.Pairwise (fun a b => a.date ≤ b.date) ts →
      firedCount (schedRun m e s ts).2 d sl ≤ 1 := by
  intro ts
  induction ts with
  | nil => intro s _; exact Nat.zero_le 1
  | cons t ts ih =>
    intro s hp
    obtain ⟨hhead, htail⟩ := List.pairwise_cons.mp hp
    rw [schedRun_cons, firedCount_append]
    cases hf : (schedStep m e s t).2 with
    | none =>
      have := ih (schedStep m e s t).1 htail
      simpa [firedCount] using this
    | some sl0 =>
      by_cases hev : t.date = d ∧ sl0 = sl
      · obtain ⟨hd, hsl⟩ := hev
        subst hd
        subst hsl
        have hfired := schedStep_fired m e s t sl0 hf
        have hz := schedRun_count_zero_of_blocked m e t.date sl0 ts
          (schedStep m e s t).1 hfired.2.1 htail hhead
        rw [hz]
        simp [firedCount, List.countP_cons]
      · have h0 : firedCount [(t.date, sl0)] d sl = 0 := by
          simp only [firedCount, List.countP_cons, List.countP_nil]
          simp [hev]
        rw [h0]
        simpa using ih (schedStep m e s t).1 htail

theorem schedRun_fires_of_window (m e d : Nat) (sl : Slot)
    (hdisj : ∀ x, ¬(isTimeToReport x m = true ∧ isTimeToReport x e = true)) :
    ∀ (ts : List Tick) (s : SchedState),
      List.Pairwise (fun a b => a.date ≤ b.date) ts →
      s.lastOf sl ≠ some d →
      (∃ t ∈ ts, t.date = d ∧
        isTimeToReport t.timeMin (targetOf m e sl) = true) →
      1 ≤ firedCount (schedRun m e s ts).2 d sl := by
  intro ts
  induction ts with
  | nil =>
    intro s _ _ hex
    obtain ⟨t, ht, _⟩ := hex
    cases ht
  | cons t ts ih =>
    intro s hp hlast hex
    obtain ⟨hhead, htail⟩ := List.pairwise_cons.mp hp
    rw [schedRun_cons, firedCount_append]
    obtain ⟨w, hw, hwd, hwin⟩ := hex
    rcases List.mem_cons.mp hw with hw | hw
    · -- the in-window tick is the head: the step fires `sl`
      subst hw
      have hf : (schedStep m e s w).2 = some sl := by
        cases sl with
        | morning =>
          have h1 : isTimeToReport w.timeMin m = true := by
            simpa [targetOf] using hwin
          have h2 : s.lastMorning ≠ some w.date := by
            rw [hwd]
            simpa [SchedState.lastOf] using hlast
          simp [schedStep, h1, h2]
        | evening =>
          have h1 : isTimeToReport w.timeMin e = true := by
            simpa [targetOf] using hwin
          have hnm : ¬ isTimeToReport w.timeMin m = true := by
            intro hm
            exact hdisj w.timeMin ⟨hm, h1⟩
          have h2 : s.lastEvening ≠ some w.date := by
            rw [hwd]
            simpa [SchedState.lastOf] using hlast
          simp [schedStep, hnm, h1, h2]
      rw [hf]
      have hc : (w.date = d ∧ sl = sl) := ⟨hwd, rfl⟩
      simp [firedCount, List.countP_cons, hc]
    · -- the in-window tick is in the tail
      cases hf : (schedStep m e s t).2 with
      | none =>
        have hkeep := schedStep_not_fired_lastOf m e s t sl (by rw [hf]; simp)
        have := ih (schedStep m e s t).1 htail (by rw [hkeep]; exact hlast)
          ⟨w, hw, hwd, hwin⟩
        simpa [firedCount] using this
      | some sl0 =>
        by_cases hev : t.date = d ∧ sl0 = sl
        · simp [firedCount, List.countP_cons, hev]
        · have hinv : (schedStep m e s t).1.lastOf sl ≠ some d := by
            by_cases hsl : sl0 = sl
            · subst hsl
              have hfired := schedStep_fired m e s t sl0 hf
              rw [hfired.2.1]
              intro hc
              apply hev
              exact ⟨by injection hc, rfl⟩
            · have hkeep := schedStep_not_fired_lastOf m e s t sl (by
                rw [hf]
                simp [hsl])
              rw [hkeep]
              exact hlast
          have htail2 := ih (schedStep m e s t).1 htail hinv ⟨w, hw, hwd, hwin⟩
          have h0 : firedCount [(t.date, sl0)] d sl = 0 := by
            simp only [firedCount, List.countP_cons, List.countP_nil]
            simp [hev]
          rw [h0]
          simpa using htail2

/-- Claim C6: for every report slot and calendar day, the report
loop fires the slot at most once per day; a step fires a slot only
when the slot's recorded date differs from today and the tick is in
the slot's ±1-minute window, recording today's date on the slot;
and any day with an in-window tick (in particular the next calendar
day after a firing) sees the slot fire.  The ticks are assumed
chronological and the two slots' windows disjoint, as with the
deployed 10:00 / 19:00 slots. -/
theorem report_slot_once_per_day (m e : Nat) (trace : List Tick)
    (hchron : List.Pairwise (fun a b => a.date ≤ b.date) trace)
    (hdisj : ∀ x, ¬(isTimeToReport x m = true ∧ isTimeToReport x e = true)) :
    (∀ d sl, firedCount (schedRun m e ⟨none, none⟩ trace).2 d sl ≤ 1) ∧
    (∀ s t sl, (schedStep m e s t).2 = some sl →
      s.lastOf sl ≠ some t.date ∧
      (schedStep m e s t).1.lastOf sl = some t.date ∧
      isTimeToReport t.timeMin (targetOf m e sl) = true) ∧
    (∀ d sl, (∃ t ∈ trace, t.date = d ∧
        isTimeToReport t.timeMin (targetOf m e sl) = true) →
      1 ≤ firedCount (schedRun m e ⟨none, none⟩ trace).2 d sl) := by
  refine ⟨fun d sl => schedRun_count_le_one m e d sl trace ⟨none, none⟩ hchron,
    fun s t sl h => schedStep_fired m e s t sl h,
    fun d sl hex => schedRun_fires_of_window m e d sl hdisj trace
      ⟨none, none⟩ hchron ?_ hex⟩
  cases sl <;> simp [SchedState.lastOf]

theorem report_slot_once_per_day_witness :
    firedCount (schedRun 600 1140 ⟨none, none⟩ demoTrace).2 0 Slot.morning ≤ 1 ∧
    1 ≤ firedCount (schedRun 600 1140 ⟨none, none⟩ demoTrace).2 1 Slot.morning := by
  have h := report_slot_once_per_day 600 1140 demoTrace
    (by simp [demoTrace])
    (by
      intro x hx
      simp [isTimeToReport] at hx
      omega)
  exact ⟨h.1 0 Slot.morning,
    h.2.2 1 Slot.morning ⟨⟨1, 600, true⟩, by simp [demoTrace], rfl, by decide⟩⟩

/-- Claim C10: the report loop records today's date on a slot after
invoking report generation even when generation or delivery fails —
`generate_and_send_report` catches every exception and returns
`False`, the loop ignores that Boolean, and the recorded date is
independent of the generation outcome — so a slot whose report
attempt failed does not fire again on a later tick of the same
calendar day. -/
theorem failed_report_records_date (m e : Nat) (s : SchedState) (t : Tick)
    (sl : Slot) (aiOk sendOk : Bool) :
    generateAndSendReport (.error ()) aiOk sendOk = false ∧
    (∀ b, schedStep m e s { t with genOk := b } = schedStep m e s t) ∧
    ((schedStep m e s t).2 = some sl →
      (schedStep m e s t).1.lastOf sl = some t.date ∧
      ∀ t2 : Tick, t2.date = t.date →
        (schedStep m e (schedStep m e s t).1 t2).2 ≠ some sl) := by
  refine ⟨rfl, fun b => rfl, ?_⟩
  intro h
  refine ⟨(schedStep_fired m e s t sl h).2.1, ?_⟩
  intro t2 ht2 hcontra
  have hpost := (schedStep_fired m e s t sl h).2.1
  have hpre2 := (schedStep_fired m e (schedStep m e s t).1 t2 sl hcontra).1
  rw [ht2] at hpre2
  exact hpre2 hpost

theorem failed_report_records_date_witness :
    (schedStep 600 1140 ⟨none, none⟩ ⟨0, 600, false⟩).1.lastOf Slot.morning =
      some 0 := by
  have h := failed_report_records_date 600 1140 ⟨none, none⟩ ⟨0, 600, false⟩
    Slot.morning true true
  exact (h.2.2 (by decide)).1

end AirflowDashboard
